import Mathlib

/-!
# Verification of the FortuneGacha draw-cycle core

Shallow embedding of `src/components/FortuneGacha.tsx`: the phase state
machine (`idle → charging → releasing → result → idle`), the `Particle`
and `ConcentrationLine` physics models, and the per-frame ticker callback
and tap handler.  JavaScript numbers are modelled as rationals (`ℚ`); all
`Math.random()` draws are passed in explicitly as oracle records, so every
operation is a pure function of state, oracle and frame delta.
-/

set_option autoImplicit false
set_option maxHeartbeats 1000000

/-- Fortune catalog entry `{ rank, color, message }` (source lines 7–14). -/
structure Fortune where
  rank : String
  color : Nat
  message : String
deriving DecidableEq

/-- The fixed ordered catalog of six fortunes (`FORTUNES`, source lines 7–14). -/
def FORTUNES : List Fortune :=
  [ { rank := "大吉", color := 0xffd700, message := "最高の運勢！素晴らしい一日になるでしょう" },
    { rank := "中吉", color := 0xff6b9d, message := "良い運勢です。前向きに行動しましょう" },
    { rank := "小吉", color := 0x7dd3fc, message := "まずまずの運勢。穏やかに過ごせます" },
    { rank := "吉", color := 0x86efac, message := "普通の運勢。地道な努力が実を結びます" },
    { rank := "末吉", color := 0xc4b5fd, message := "控えめな運勢。慎重に行動しましょう" },
    { rank := "凶", color := 0x94a3b8, message := "今日は慎重に。明日はきっと良い日に" } ]

/-- `FORTUNES[i]` for an in-range index.  `Math.floor(Math.random() * FORTUNES.length)`
produces exactly an index in `Fin 6`, which the oracle supplies directly. -/
def fortuneAt (i : Fin 6) : Fortune :=
  FORTUNES.get ⟨i.val, i.isLt⟩

/-- Physics particle (source lines 17–53).  Fields are exactly the source's
instance fields; numbers are `ℚ`. -/
structure Particle where
  x : ℚ
  y : ℚ
  vx : ℚ
  vy : ℚ
  life : ℚ
  maxLife : ℚ
  size : ℚ
  color : Nat
  gravity : ℚ
  friction : ℚ
deriving DecidableEq

/-- Random draws consumed by `new Particle(...)` (source lines 29–42).
The source draws a random `angle` and reads it only through
`Math.cos(angle)` / `Math.sin(angle)`, so the oracle carries that pair
`(c, s)` directly; `speedR`, `maxLifeR`, `sizeR` are the raw
`Math.random()` values in `[0,1)`. -/
structure ParticleRnd where
  c : ℚ
  s : ℚ
  speedR : ℚ
  maxLifeR : ℚ
  sizeR : ℚ
deriving DecidableEq

/-- `new Particle(x, y, color)` (source lines 29–42): velocity is a random
direction with speed `Math.random()*15 + 5`; `life = 1`;
`maxLife = Math.random()*2 + 1`; `size = Math.random()*4 + 2`;
`gravity = 0.15`; `friction = 0.98`. -/
def mkParticle (r : ParticleRnd) (x y : ℚ) (color : Nat) : Particle :=
  { x := x
    y := y
    vx := r.c * (r.speedR * 15 + 5)
    vy := r.s * (r.speedR * 15 + 5)
    life := 1
    maxLife := r.maxLifeR * 2 + 1
    size := r.sizeR * 4 + 2
    color := color
    gravity := 15 / 100
    friction := 98 / 100 }

/-- `Particle.update(delta)` (source lines 44–52).  The source mutates the
particle and returns `this.life > 0`; the embedding returns the updated
particle paired with that boolean. -/
def Particle.update (p : Particle) (delta : ℚ) : Particle × Bool :=
  let vy1 := p.vy + p.gravity * delta
  let vx1 := p.vx * p.friction
  let vy2 := vy1 * p.friction
  let x1 := p.x + vx1 * delta
  let y1 := p.y + vy2 * delta
  let life1 := p.life - delta / 60 / p.maxLife
  ({ p with vx := vx1, vy := vy2, x := x1, y := y1, life := life1 },
   decide (life1 > 0))

/-- Concentration line (source lines 56–88).  The source stores a random
`angle` and reads it only through `Math.cos(angle)` / `Math.sin(angle)`,
so the embedding stores that pair `(cosA, sinA)`; constructed lines carry
`cosA ^ 2 + sinA ^ 2 = 1` as a hypothesis in the theorems that need it. -/
structure ConcentrationLine where
  cosA : ℚ
  sinA : ℚ
  speed : ℚ
  length : ℚ
  width : ℚ
  distance : ℚ
  targetX : ℚ
  targetY : ℚ
deriving DecidableEq

/-- Random draws consumed by `new ConcentrationLine(...)` (source lines 65–73):
`(c, s)` is the (cos, sin) pair of the random angle; the rest are the raw
`Math.random()` values in `[0,1)`. -/
structure LineRnd where
  c : ℚ
  s : ℚ
  speedR : ℚ
  lengthR : ℚ
  widthR : ℚ
  distR : ℚ
deriving DecidableEq

/-- `new ConcentrationLine(centerX, centerY)` (source lines 65–73):
`speed = Math.random()*8 + 4`, `length = Math.random()*100 + 50`,
`width = Math.random()*3 + 1`, `distance = Math.random()*200 + 400`. -/
def mkConcentrationLine (r : LineRnd) (centerX centerY : ℚ) : ConcentrationLine :=
  { cosA := r.c
    sinA := r.s
    speed := r.speedR * 8 + 4
    length := r.lengthR * 100 + 50
    width := r.widthR * 3 + 1
    distance := r.distR * 200 + 400
    targetX := centerX
    targetY := centerY }

/-- `ConcentrationLine.update(delta)` (source lines 75–78): reduce
`distance` by `speed * delta`, return `distance > 0`. -/
def ConcentrationLine.update (l : ConcentrationLine) (delta : ℚ) :
    ConcentrationLine × Bool :=
  ({ l with distance := l.distance - l.speed * delta },
   decide (l.distance - l.speed * delta > 0))

/-- Result of `ConcentrationLine.getPosition()`: the head point `(x, y)`
and tail point `(endX, endY)` of the streak. -/
structure LineSeg where
  x : ℚ
  y : ℚ
  endX : ℚ
  endY : ℚ
deriving DecidableEq

/-- `ConcentrationLine.getPosition()` (source lines 80–87): head at
`target + dir * distance`, tail at `target + dir * (distance + length)`. -/
def ConcentrationLine.getPosition (l : ConcentrationLine) : LineSeg :=
  { x := l.targetX + l.cosA * l.distance
    y := l.targetY + l.sinA * l.distance
    endX := l.targetX + l.cosA * (l.distance + l.length)
    endY := l.targetY + l.sinA * (l.distance + l.length) }

/-- Draw-cycle phase (`type GachaPhase`, source line 90). -/
inductive GachaPhase
  | idle
  | charging
  | releasing
  | result
deriving DecidableEq

/-- The mutable scene state captured by the component closure (source lines
114–120, 391, plus the scene-graph fields the claims observe:
`instructionText.visible`, `cardContainer.visible`, `gachaLayer.scale`
(a single number, since `scale.set(v)` sets both axes to `v`),
`gachaLayer.position`, and `gachaGraphics.alpha`/`glowGraphics.alpha`
(always assigned the same value, tracked once as `gachaAlpha`).
Purely cosmetic quantities that no claim mentions (tween targets, text
alpha, card rotation) are not tracked. -/
structure GachaState where
  phase : GachaPhase
  particles : List Particle
  concentrationLines : List ConcentrationLine
  energyParticles : List Particle
  idleTime : ℚ
  chargeProgress : ℚ
  selectedFortune : Option Fortune
  instructionVisible : Bool
  cardVisible : Bool
  gachaScale : ℚ
  gachaPos : ℚ × ℚ
  gachaAlpha : ℚ
deriving DecidableEq

/-- The scene's initial state: `phase = 'idle'`, empty collections, no
fortune selected, instruction prompt shown, default layer transform. -/
def initialState : GachaState :=
  { phase := .idle
    particles := []
    concentrationLines := []
    energyParticles := []
    idleTime := 0
    chargeProgress := 0
    selectedFortune := none
    instructionVisible := true
    cardVisible := false
    gachaScale := 1
    gachaPos := (0, 0)
    gachaAlpha := 1 }

/-- Random draws consumed by `addEnergyParticle()` (source lines 366–383):
`(c, s)` is the (cos, sin) pair of the random spawn angle, `distR` and
`speedR` are raw `Math.random()` values in `[0,1)`, and `pr` feeds the
inner `new Particle(...)` call. -/
structure EnergyRnd where
  c : ℚ
  s : ℚ
  distR : ℚ
  speedR : ℚ
  pr : ParticleRnd
deriving DecidableEq

/-- The spawn radius drawn in `addEnergyParticle()`:
`const distance = 300 + Math.random() * 200` (source line 370). -/
def spawnDistance (r : EnergyRnd) : ℚ :=
  300 + r.distR * 200

/-- `addEnergyParticle()` (source lines 366–383): spawn on a random annulus
point, then override velocity to point toward the center
(`(cx - x) / distance * speed * 3`), disable gravity/friction, and set
`maxLife = distance / (speed * 60)`. -/
def addEnergyParticle (r : EnergyRnd) (cx cy : ℚ) : Particle :=
  { mkParticle r.pr (cx + r.c * spawnDistance r) (cy + r.s * spawnDistance r) 0xa5b4fc with
    vx := (cx - (cx + r.c * spawnDistance r)) / spawnDistance r * (r.speedR * 5 + 3) * 3
    vy := (cy - (cy + r.s * spawnDistance r)) / spawnDistance r * (r.speedR * 5 + 3) * 3
    gravity := 0
    friction := 1
    maxLife := spawnDistance r / ((r.speedR * 5 + 3) * 60) }

/-- Per-tick random draws consumed by the `app.ticker.add` callback
(source lines 442–598).  The two `chargeSpawn*` flags stand for the
`Math.random() < 0.3` / `< 0.2` spawn rolls during charging;
`explosion` supplies, for each of the 150 explosion particles, the
palette index `Math.floor(Math.random() * colors.length)` and the
constructor randoms; `resultSpawnFlag` stands for the
`Math.random() < 0.1` ambient roll during `result`, with the remaining
fields the randoms of that ambient spawn (source lines 572–585). -/
structure TickRnd where
  chargeSpawnEnergy : Bool
  chargeEnergy : EnergyRnd
  chargeSpawnLine : Bool
  chargeLine : LineRnd
  explosion : Fin 150 → Fin 5 × ParticleRnd
  resultSpawnFlag : Bool
  resultC : ℚ
  resultS : ℚ
  resultDistR : ℚ
  resultVxR : ℚ
  resultVyR : ℚ
  resultPr : ParticleRnd

/-- The explosion color palette
`[0xffd700, 0xff6b9d, 0x7dd3fc, 0xa5b4fc, 0xffffff]` (source line 508). -/
def explosionPalette : List Nat :=
  [0xffd700, 0xff6b9d, 0x7dd3fc, 0xa5b4fc, 0xffffff]

/-- The 150 particles pushed at the charging → releasing boundary (source
lines 509–512): each at the center, colored by a random palette index. -/
def explosionParticles (cx cy : ℚ) (e : Fin 150 → Fin 5 × ParticleRnd) : List Particle :=
  List.ofFn fun i => mkParticle (e i).2 cx cy (explosionPalette.get ⟨((e i).1 : Nat), (e i).1.isLt⟩)

/-- `Math.hypot(p.x - cx, p.y - cy) < 50` (source lines 468–469), stated
with squared distances: both sides are nonnegative, so the comparison is
equivalent to `(p.x - cx)^2 + (p.y - cy)^2 < 50^2`. -/
def nearCenter (p : Particle) (cx cy : ℚ) : Bool :=
  decide ((p.x - cx) ^ 2 + (p.y - cy) ^ 2 < 50 ^ 2)

/-- The body of the charging-phase `energyParticles.filter` callback
(source lines 463–471): update the particle, drop it if it reached the
50-unit absorption radius, otherwise keep it exactly when still alive. -/
def energyFilter (cx cy delta : ℚ) (p : Particle) : Option Particle :=
  if nearCenter (p.update delta).1 cx cy then none
  else if (p.update delta).2 then some (p.update delta).1 else none

/-- The body of the `particles.filter(p => p.update(delta))` callbacks
(source lines 532 and 589): keep the updated particle exactly when alive. -/
def particleFilter (delta : ℚ) (p : Particle) : Option Particle :=
  if (p.update delta).2 then some (p.update delta).1 else none

/-- The body of the `concentrationLines.filter(l => l.update(delta))`
callback (source line 474). -/
def lineFilter (delta : ℚ) (l : ConcentrationLine) : Option ConcentrationLine :=
  if (ConcentrationLine.update l delta).2 then some (ConcentrationLine.update l delta).1
  else none

/-- `if (Math.random() < 0.3) addEnergyParticle()` (source line 459):
conditionally push one converging particle. -/
def energySpawn (r : TickRnd) (cx cy : ℚ) (eps : List Particle) : List Particle :=
  if r.chargeSpawnEnergy then eps ++ [addEnergyParticle r.chargeEnergy cx cy] else eps

/-- `if (Math.random() < 0.2) addConcentrationLine()` (source line 460). -/
def lineSpawn (r : TickRnd) (cx cy : ℚ) (cls : List ConcentrationLine) :
    List ConcentrationLine :=
  if r.chargeSpawnLine then cls ++ [mkConcentrationLine r.chargeLine cx cy] else cls

/-- `1 + chargeProgress * 0.1`, the charging scale-up (source line 480). -/
def chargeScale (cp : ℚ) : ℚ :=
  1 + cp * (1 / 10)

/-- The per-coordinate expression of `gachaLayer.position.set` during
charging (source lines 481–484): `c * (1 - s) + c * (s - 1)`. -/
def gachaOffset (c s : ℚ) : ℚ :=
  c * (1 - s) + c * (s - 1)

/-- The idle branch of the ticker (source lines 445–453): accumulate the
breathing clock `idleTime += delta * 0.02`; everything else drawn there is
render-only. -/
def idleStep (delta : ℚ) (st : GachaState) : GachaState :=
  { st with idleTime := st.idleTime + delta * (2 / 100) }

/-- The charging branch of the ticker (source lines 455–526), written as
the net effect of the source's sequential mutations on each field:
`chargeProgress += delta / 90`; conditional energy/line spawns; both
collections filtered; scale and position set from the new progress; then,
when `chargeProgress >= 1`, the phase flips to `releasing` with
`chargeProgress = 0`, 150 explosion particles are pushed, and the
convergence collections are cleared. -/
def chargingStep (cx cy : ℚ) (r : TickRnd) (delta : ℚ) (st : GachaState) : GachaState :=
  if 1 ≤ st.chargeProgress + delta / 90 then
    { st with
      phase := .releasing
      chargeProgress := 0
      particles := st.particles ++ explosionParticles cx cy r.explosion
      energyParticles := []
      concentrationLines := []
      gachaScale := chargeScale (st.chargeProgress + delta / 90)
      gachaPos := (gachaOffset cx (chargeScale (st.chargeProgress + delta / 90)),
                   gachaOffset cy (chargeScale (st.chargeProgress + delta / 90))) }
  else
    { st with
      chargeProgress := st.chargeProgress + delta / 90
      energyParticles := (energySpawn r cx cy st.energyParticles).filterMap (energyFilter cx cy delta)
      concentrationLines := (lineSpawn r cx cy st.concentrationLines).filterMap (lineFilter delta)
      gachaScale := chargeScale (st.chargeProgress + delta / 90)
      gachaPos := (gachaOffset cx (chargeScale (st.chargeProgress + delta / 90)),
                   gachaOffset cy (chargeScale (st.chargeProgress + delta / 90))) }

/-- The releasing branch of the ticker (source lines 528–568):
`chargeProgress += delta / 60`; physics update of the explosion particles;
orb alpha `1 - chargeProgress`; then, when `chargeProgress >= 1` and a
fortune is selected, flip to `result`, reset the layer scale and show the
card. -/
def releasingStep (delta : ℚ) (st : GachaState) : GachaState :=
  if 1 ≤ st.chargeProgress + delta / 60 ∧ st.selectedFortune.isSome = true then
    { st with
      chargeProgress := st.chargeProgress + delta / 60
      particles := st.particles.filterMap (particleFilter delta)
      gachaAlpha := 1 - (st.chargeProgress + delta / 60)
      phase := .result
      gachaScale := 1
      cardVisible := true }
  else
    { st with
      chargeProgress := st.chargeProgress + delta / 60
      particles := st.particles.filterMap (particleFilter delta)
      gachaAlpha := 1 - (st.chargeProgress + delta / 60) }

/-- The ambient particle spawned during `result` (source lines 572–585):
constructed on a ring of radius `150 + Math.random() * 50`, then its
velocity and gravity are overridden (`vx = (Math.random() - 0.5) * 2`,
`vy = -Math.random() * 2 - 1`, `gravity = -0.02`). -/
def ambientParticle (r : TickRnd) (cx cy : ℚ) (f : Fortune) : Particle :=
  { mkParticle r.resultPr (cx + r.resultC * (150 + r.resultDistR * 50))
      (cy + r.resultS * (150 + r.resultDistR * 50)) f.color with
    vx := (r.resultVxR - 1 / 2) * 2
    vy := -(r.resultVyR * 2) - 1
    gravity := -(2 / 100) }

/-- `if (Math.random() < 0.1 && selectedFortune)` push an ambient particle
(source lines 572–586). -/
def resultSpawn (r : TickRnd) (cx cy : ℚ) (sf : Option Fortune) (ps : List Particle) :
    List Particle :=
  match sf with
  | some f => if r.resultSpawnFlag then ps ++ [ambientParticle r cx cy f] else ps
  | none => ps

/-- The result branch of the ticker (source lines 570–594): conditional
ambient spawn, physics update of the floating particles, and the sway
clock `idleTime += delta * 0.02` (the card sway itself is render-only). -/
def resultStep (cx cy : ℚ) (r : TickRnd) (delta : ℚ) (st : GachaState) : GachaState :=
  { st with
    particles := (resultSpawn r cx cy st.selectedFortune st.particles).filterMap (particleFilter delta)
    idleTime := st.idleTime + delta * (2 / 100) }

/-- The `app.ticker.add` callback (source lines 442–598): one per-frame
advance step, dispatching on `phase` exactly as the source's if/else-if
chain does.  `cx`/`cy` are the current `getCenterX()`/`getCenterY()`
values, `delta` is `ticker.deltaTime`. -/
def advance (cx cy : ℚ) (r : TickRnd) (delta : ℚ) (st : GachaState) : GachaState :=
  if st.phase = .idle then idleStep delta st
  else if st.phase = .charging then chargingStep cx cy r delta st
  else if st.phase = .releasing then releasingStep delta st
  else if st.phase = .result then resultStep cx cy r delta st
  else st

/-- `handleTap` (source lines 393–437): from `idle`, begin charging and
commit a uniformly-random fortune; from `result`, reset to `idle`, hide
the card, clear the particles and restore the prompt; otherwise do
nothing.  `fr` is the random catalog index
`Math.floor(Math.random() * FORTUNES.length)`. -/
def handleTap (fr : Fin 6) (st : GachaState) : GachaState :=
  if st.phase = .idle then
    { st with
      phase := .charging
      chargeProgress := 0
      selectedFortune := some (fortuneAt fr)
      instructionVisible := false }
  else if st.phase = .result then
    { st with
      phase := .idle
      cardVisible := false
      particles := []
      instructionVisible := true }
  else st

/-- One observable event of the scene: either a tap/click (`handleTap`)
or one ticker frame (`advance`), with arbitrary random draws, center
coordinates and frame delta. -/
inductive GStep : GachaState → GachaState → Prop
  | tap (fr : Fin 6) (st : GachaState) : GStep st (handleTap fr st)
  | tick (cx cy : ℚ) (r : TickRnd) (delta : ℚ) (st : GachaState) :
      GStep st (advance cx cy r delta st)

/-- Reachability: any finite interleaving of taps and ticker frames. -/
inductive GReach : GachaState → GachaState → Prop
  | refl (st : GachaState) : GReach st st
  | tail (a b c : GachaState) : GReach a b → GStep b c → GReach a c

/-- One recorded ticker frame: center coordinates, random draws, delta. -/
structure Tick where
  cx : ℚ
  cy : ℚ
  rnd : TickRnd
  dt : ℚ

/-- Run a sequence of ticker frames (no taps in between). -/
def runTicks (ts : List Tick) (st : GachaState) : GachaState :=
  ts.foldl (fun s t => advance t.cx t.cy t.rnd t.dt s) st

/-- Total `deltaTime` of a frame sequence. -/
def sumDt (ts : List Tick) : ℚ :=
  (ts.map Tick.dt).sum

/-- Successor along the cycle `idle → charging → releasing → result → idle`. -/
def phaseSucc : GachaPhase → GachaPhase
  | .idle => .charging
  | .charging => .releasing
  | .releasing => .result
  | .result => .idle

/-- Predecessor along the cycle: the unique phase whose successor it is. -/
def phasePred : GachaPhase → GachaPhase
  | .charging => .idle
  | .releasing => .charging
  | .result => .releasing
  | .idle => .result

/-- A fixed catalog index, used to instantiate witnesses. -/
def f0 : Fin 6 := ⟨0, by norm_num⟩

/-- All-zero particle-constructor oracle. -/
def pr0 : ParticleRnd :=
  { c := 0, s := 0, speedR := 0, maxLifeR := 0, sizeR := 0 }

/-- All-zero energy-spawn oracle. -/
def er0 : EnergyRnd :=
  { c := 0, s := 0, distR := 0, speedR := 0, pr := pr0 }

/-- All-zero concentration-line oracle. -/
def lr0 : LineRnd :=
  { c := 0, s := 0, speedR := 0, lengthR := 0, widthR := 0, distR := 0 }

/-- A fixed per-tick oracle: no probabilistic spawns fire, and every
explosion particle uses palette index 0 with all-zero constructor draws. -/
def rnd0 : TickRnd :=
  { chargeSpawnEnergy := false
    chargeEnergy := er0
    chargeSpawnLine := false
    chargeLine := lr0
    explosion := fun _ => (⟨0, by norm_num⟩, pr0)
    resultSpawnFlag := false
    resultC := 0
    resultS := 0
    resultDistR := 0
    resultVxR := 0
    resultVyR := 0
    resultPr := pr0 }

/-- A concrete mid-charge state (as produced by a tap from `initialState`). -/
def chargingState : GachaState :=
  { initialState with
    phase := .charging
    selectedFortune := some (fortuneAt f0)
    instructionVisible := false }

/-- A concrete mid-release state. -/
def releasingState : GachaState :=
  { chargingState with phase := .releasing }

/-- A concrete result-phase state. -/
def resultState : GachaState :=
  { chargingState with phase := .result, cardVisible := true, chargeProgress := 1 }

/-- A concrete particle sitting at the origin with no velocity, gravity or
friction: after an update it is still alive and well inside the 50-unit
absorption radius of a center at the origin. -/
def centerParticle : Particle :=
  { x := 0, y := 0, vx := 0, vy := 0, life := 1, maxLife := 1, size := 1,
    color := 0, gravity := 0, friction := 1 }

/-- The same particle moved 1000 units away: after an update it stays far
outside the 50-unit absorption radius of a center at the origin. -/
def farParticle : Particle :=
  { centerParticle with x := 1000 }

/-- A concrete concentration line pointing along the positive x-axis
(`cos angle = 1`, `sin angle = 0`) at distance 400 with length 100. -/
def demoLine : ConcentrationLine :=
  { cosA := 1, sinA := 0, speed := 5, length := 100, width := 2,
    distance := 400, targetX := 0, targetY := 0 }

/-- A ticker frame with `deltaTime = 90` (the full charge duration). -/
def tick90 : Tick :=
  { cx := 0, cy := 0, rnd := rnd0, dt := 90 }

theorem advance_idle (cx cy : ℚ) (r : TickRnd) (delta : ℚ) (st : GachaState)
    (h : st.phase = .idle) : advance cx cy r delta st = idleStep delta st := by
  simp [advance, h]

theorem advance_charging (cx cy : ℚ) (r : TickRnd) (delta : ℚ) (st : GachaState)
    (h : st.phase = .charging) : advance cx cy r delta st = chargingStep cx cy r delta st := by
  simp [advance, h]

theorem advance_releasing (cx cy : ℚ) (r : TickRnd) (delta : ℚ) (st : GachaState)
    (h : st.phase = .releasing) : advance cx cy r delta st = releasingStep delta st := by
  simp [advance, h]

theorem advance_result (cx cy : ℚ) (r : TickRnd) (delta : ℚ) (st : GachaState)
    (h : st.phase = .result) : advance cx cy r delta st = resultStep cx cy r delta st := by
  simp [advance, h]

theorem advance_selectedFortune (cx cy : ℚ) (r : TickRnd) (delta : ℚ) (st : GachaState) :
    (advance cx cy r delta st).selectedFortune = st.selectedFortune := by
  cases h : st.phase with
  | idle => rw [advance_idle cx cy r delta st h]; rfl
  | charging =>
      rw [advance_charging cx cy r delta st h]
      unfold chargingStep; split <;> rfl
  | releasing =>
      rw [advance_releasing cx cy r delta st h]
      unfold releasingStep; split <;> rfl
  | result => rw [advance_result cx cy r delta st h]; rfl

/-- C5: for every `Particle` and every delta, `update(delta)` performs
exactly the integration sequence of the spec — `vy += gravity·Δ`, both
velocity components scaled by `friction`, position advanced by the new
velocity times `Δ`, `life` decremented by `Δ / (60 · maxLife)` — leaves
every other field unchanged, and returns `true` iff the resulting `life`
is strictly positive. -/
theorem C5_particle_update_contract (p : Particle) (delta : ℚ) :
    (p.update delta).1.vy = (p.vy + p.gravity * delta) * p.friction ∧
    (p.update delta).1.vx = p.vx * p.friction ∧
    (p.update delta).1.x = p.x + p.vx * p.friction * delta ∧
    (p.update delta).1.y = p.y + (p.vy + p.gravity * delta) * p.friction * delta ∧
    (p.update delta).1.life = p.life - delta / (60 * p.maxLife) ∧
    (p.update delta).2 = decide (0 < (p.update delta).1.life) ∧
    (p.update delta).1.maxLife = p.maxLife ∧
    (p.update delta).1.size = p.size ∧
    (p.update delta).1.color = p.color ∧
    (p.update delta).1.gravity = p.gravity ∧
    (p.update delta).1.friction = p.friction := by
  refine ⟨rfl, rfl, rfl, rfl, ?_, rfl, rfl, rfl, rfl, rfl, rfl⟩
  simp [Particle.update, div_div]

/-- C2: while `phase ∈ {charging, releasing}`, a tap leaves the entire
state — `phase`, `chargeProgress`, `selectedFortune` and every other
tracked field — unchanged. -/
theorem C2_input_ignored_midcycle (st : GachaState) (fr : Fin 6)
    (h : st.phase = .charging ∨ st.phase = .releasing) :
    handleTap fr st = st := by
  rcases h with h | h <;> simp [handleTap, h]

/-- Witness for C2 at a concrete charging state. -/
theorem C2_witness : handleTap f0 chargingState = chargingState :=
  C2_input_ignored_midcycle chargingState f0 (Or.inl rfl)

/-- C3: no advance step ever writes `selectedFortune`; a tap writes it
exactly at the `idle → charging` transition (to the drawn catalog entry)
and preserves it in every other phase. -/
theorem C3_selectedFortune_write_once (cx cy delta : ℚ) (r : TickRnd)
    (sta stb stc : GachaState) (fr fr2 : Fin 6)
    (hb : stb.phase = .idle) (hc : stc.phase ≠ .idle) :
    (advance cx cy r delta sta).selectedFortune = sta.selectedFortune ∧
    (handleTap fr stb).selectedFortune = some (fortuneAt fr) ∧
    (handleTap fr2 stc).selectedFortune = stc.selectedFortune := by
  refine ⟨advance_selectedFortune cx cy r delta sta, ?_, ?_⟩
  · simp [handleTap, hb]
  · simp only [handleTap]
    rw [if_neg hc]
    split <;> rfl

/-- Witness for C3 at concrete states. -/
theorem C3_witness :
    (advance 0 0 rnd0 1 chargingState).selectedFortune = chargingState.selectedFortune ∧
    (handleTap f0 initialState).selectedFortune = some (fortuneAt f0) ∧
    (handleTap f0 chargingState).selectedFortune = chargingState.selectedFortune :=
  C3_selectedFortune_write_once 0 0 1 rnd0 chargingState initialState chargingState f0 f0
    rfl (by decide)

/-- C9: on every charging-phase advance step the gacha layer's position is
set to exactly `(0, 0)` — the expression `c·(1−s) + c·(s−1)` used for both
coordinates is identically zero, whatever the center and scale are. -/
theorem C9_gacha_position_zero (cx cy delta : ℚ) (r : TickRnd) (st : GachaState)
    (hch : st.phase = .charging) :
    (advance cx cy r delta st).gachaPos = (0, 0) := by
  have hz : ∀ c s : ℚ, gachaOffset c s = 0 := by
    intro c s; unfold gachaOffset; ring
  rw [advance_charging cx cy r delta st hch]
  unfold chargingStep
  split <;> simp [hz]

/-- Witness for C9 at a concrete charging state with a nonzero center. -/
theorem C9_witness : (advance 512 384 rnd0 1 chargingState).gachaPos = (0, 0) :=
  C9_gacha_position_zero 512 384 1 rnd0 chargingState rfl

/-- C8: the converging-spawn geometry is division-safe: the spawn distance
is always at least 300, so clamping it at a small positive epsilon (here
`1/1000`) is the identity, the normalizing divisor is nonzero, and the
velocity components satisfy the exact (finite) division equations. -/
theorem C8_energy_spawn_division_safe (r : EnergyRnd) (cx cy : ℚ) (hd : 0 ≤ r.distR) :
    300 ≤ spawnDistance r ∧
    max (1 / 1000) (spawnDistance r) = spawnDistance r ∧
    spawnDistance r ≠ 0 ∧
    (addEnergyParticle r cx cy).vx * spawnDistance r
      = (cx - (cx + r.c * spawnDistance r)) * ((r.speedR * 5 + 3) * 3) ∧
    (addEnergyParticle r cx cy).vy * spawnDistance r
      = (cy - (cy + r.s * spawnDistance r)) * ((r.speedR * 5 + 3) * 3) := by
  have h300 : 300 ≤ spawnDistance r := by
    unfold spawnDistance; nlinarith
  have hne : spawnDistance r ≠ 0 := ne_of_gt (by linarith)
  refine ⟨h300, max_eq_right (by linarith), hne, ?_, ?_⟩ <;>
    · simp only [addEnergyParticle]
      field_simp
      ring_nf
      exact Or.inl trivial

/-- Witness for C8 at the all-zero spawn oracle. -/
theorem C8_witness :
    300 ≤ spawnDistance er0 ∧
    max (1 / 1000) (spawnDistance er0) = spawnDistance er0 ∧
    spawnDistance er0 ≠ 0 ∧
    (addEnergyParticle er0 7 9).vx * spawnDistance er0
      = (7 - (7 + er0.c * spawnDistance er0)) * ((er0.speedR * 5 + 3) * 3) ∧
    (addEnergyParticle er0 7 9).vy * spawnDistance er0
      = (9 - (9 + er0.s * spawnDistance er0)) * ((er0.speedR * 5 + 3) * 3) :=
  C8_energy_spawn_division_safe er0 7 9 (by norm_num [er0])

theorem gstep_phase (st st' : GachaState) (h : GStep st st') :
    st'.phase = st.phase ∨ st'.phase = phaseSucc st.phase := by
  cases h with
  | tap fr st =>
      cases hp : st.phase with
      | idle => right; simp [handleTap, hp, phaseSucc]
      | charging => left; simp [handleTap, hp]
      | releasing => left; simp [handleTap, hp]
      | result => right; simp [handleTap, hp, phaseSucc]
  | tick cx cy r delta st =>
      cases hp : st.phase with
      | idle =>
          left; rw [advance_idle cx cy r delta st hp]; exact hp
      | charging =>
          rw [advance_charging cx cy r delta st hp]
          unfold chargingStep
          split
          · right; simp [hp, phaseSucc]
          · left; exact hp
      | releasing =>
          rw [advance_releasing cx cy r delta st hp]
          unfold releasingStep
          split
          · right; simp [hp, phaseSucc]
          · left; exact hp
      | result =>
          left; rw [advance_result cx cy r delta st hp]; exact hp

/-- C1: along any single observable step (tap or ticker frame, from any
state), the phase either stays put or moves to its unique successor on
the cycle `idle → charging → releasing → result → idle`; consequently a
phase that changes is always entered from its unique cycle predecessor —
no phase is skipped and none has a second incoming edge. -/
theorem C1_phase_cycle (st st' : GachaState) (h : GStep st st') :
    (st'.phase = st.phase ∨ st'.phase = phaseSucc st.phase) ∧
    (st'.phase ≠ st.phase → st.phase = phasePred st'.phase) := by
  refine ⟨gstep_phase st st' h, fun hne => ?_⟩
  rcases gstep_phase st st' h with he | hs
  · exact absurd he hne
  · rw [hs]
    cases hp : st.phase <;> simp [phaseSucc, phasePred]

/-- Witness for C1 at the initial tap. -/
theorem C1_witness :
    ((handleTap f0 initialState).phase = initialState.phase ∨
      (handleTap f0 initialState).phase = phaseSucc initialState.phase) ∧
    ((handleTap f0 initialState).phase ≠ initialState.phase →
      initialState.phase = phasePred (handleTap f0 initialState).phase) :=
  C1_phase_cycle initialState (handleTap f0 initialState) (GStep.tap f0 initialState)

theorem gstep_fortune_some (a b : GachaState) (h : GStep a b)
    (ha : a.selectedFortune.isSome = true) : b.selectedFortune.isSome = true := by
  cases h with
  | tap fr st =>
      unfold handleTap
      split
      · simp
      · split
        · exact ha
        · exact ha
  | tick cx cy r delta st =>
      rw [advance_selectedFortune]; exact ha

theorem reach_fortune_some (a b : GachaState) (h : GReach a b)
    (ha : a.selectedFortune.isSome = true) : b.selectedFortune.isSome = true := by
  induction h with
  | refl => exact ha
  | tail y z hxy hyz ih => exact gstep_fortune_some y z hyz ih

/-- C10: the `result → idle` tap keeps the previous draw's
`selectedFortune` unchanged (it is not reset to `null`), and every state
reachable — by any interleaving of taps and frames — after a first
`idle → charging` tap has a non-null `selectedFortune`. -/
theorem C10_selectedFortune_persistence (fr fr0 : Fin 6) (st st0 st1 : GachaState)
    (hres : st.phase = .result) (hidle : st0.phase = .idle)
    (hreach : GReach (handleTap fr0 st0) st1) :
    (handleTap fr st).selectedFortune = st.selectedFortune ∧
    st1.selectedFortune.isSome = true := by
  constructor
  · simp only [handleTap]
    rw [if_neg (by simp [hres]), if_pos hres]
  · apply reach_fortune_some _ _ hreach
    simp [handleTap, hidle]

/-- Witness for C10 at concrete states. -/
theorem C10_witness :
    (handleTap f0 resultState).selectedFortune = resultState.selectedFortune ∧
    (handleTap f0 initialState).selectedFortune.isSome = true :=
  C10_selectedFortune_persistence f0 f0 resultState initialState
    (handleTap f0 initialState) rfl rfl (GReach.refl _)

/-- C6 counterexample: for the concrete line `demoLine` (unit direction
along the x-axis, `distance = 400`, `length = 100`) the head point's
distance to the target center equals — rather than strictly exceeds — the
tail point's distance minus the line's length, so the claimed strict
inequality is false. -/
theorem C6_counterexample :
    ¬ (Real.sqrt ((((demoLine.getPosition.x - demoLine.targetX) ^ 2 +
          (demoLine.getPosition.y - demoLine.targetY) ^ 2 : ℚ) : ℝ))
        > Real.sqrt ((((demoLine.getPosition.endX - demoLine.targetX) ^ 2 +
          (demoLine.getPosition.endY - demoLine.targetY) ^ 2 : ℚ) : ℝ))
          - (demoLine.length : ℝ)) := by
  have h1 : ((demoLine.getPosition.x - demoLine.targetX) ^ 2 +
      (demoLine.getPosition.y - demoLine.targetY) ^ 2 : ℚ) = 400 ^ 2 := by
    norm_num [ConcentrationLine.getPosition, demoLine]
  have h2 : ((demoLine.getPosition.endX - demoLine.targetX) ^ 2 +
      (demoLine.getPosition.endY - demoLine.targetY) ^ 2 : ℚ) = 500 ^ 2 := by
    norm_num [ConcentrationLine.getPosition, demoLine]
  rw [h1, h2]
  push_cast
  rw [Real.sqrt_sq (by norm_num : (0:ℝ) ≤ 400), Real.sqrt_sq (by norm_num : (0:ℝ) ≤ 500)]
  norm_num [demoLine]

/-- C6 (amended): for every line with unit direction, nonnegative length,
nonnegative speed and nonnegative delta, `distance` is non-increasing
under `update`, and the head point returned by `getPosition` is at least
as far (not strictly farther) from the target center as the tail point's
distance minus the configured `length`. -/
theorem C6_line_geometry_amended (l : ConcentrationLine) (delta : ℚ)
    (hunit : l.cosA ^ 2 + l.sinA ^ 2 = 1) (hlen : 0 ≤ l.length)
    (hspeed : 0 ≤ l.speed) (hdt : 0 ≤ delta) :
    (ConcentrationLine.update l delta).1.distance ≤ l.distance ∧
    Real.sqrt ((((l.getPosition.x - l.targetX) ^ 2 + (l.getPosition.y - l.targetY) ^ 2 : ℚ) : ℝ))
      ≥ Real.sqrt ((((l.getPosition.endX - l.targetX) ^ 2 +
          (l.getPosition.endY - l.targetY) ^ 2 : ℚ) : ℝ)) - (l.length : ℝ) := by
  constructor
  · show l.distance - l.speed * delta ≤ l.distance
    nlinarith [mul_nonneg hspeed hdt]
  · have h1 : ((l.getPosition.x - l.targetX) ^ 2 + (l.getPosition.y - l.targetY) ^ 2 : ℚ)
        = l.distance ^ 2 := by
      simp only [ConcentrationLine.getPosition]
      linear_combination l.distance ^ 2 * hunit
    have h2 : ((l.getPosition.endX - l.targetX) ^ 2 + (l.getPosition.endY - l.targetY) ^ 2 : ℚ)
        = (l.distance + l.length) ^ 2 := by
      simp only [ConcentrationLine.getPosition]
      linear_combination (l.distance + l.length) ^ 2 * hunit
    rw [h1, h2]
    push_cast
    rw [Real.sqrt_sq_eq_abs, Real.sqrt_sq_eq_abs]
    have habs := abs_add (l.distance : ℝ) (l.length : ℝ)
    have hL : |(l.length : ℝ)| = (l.length : ℝ) := abs_of_nonneg (by exact_mod_cast hlen)
    linarith [habs, hL]

/-- Witness for the amended C6 at `demoLine` with `delta = 1`. -/
theorem C6_witness :
    (ConcentrationLine.update demoLine 1).1.distance ≤ demoLine.distance ∧
    Real.sqrt ((((demoLine.getPosition.x - demoLine.targetX) ^ 2 +
        (demoLine.getPosition.y - demoLine.targetY) ^ 2 : ℚ) : ℝ))
      ≥ Real.sqrt ((((demoLine.getPosition.endX - demoLine.targetX) ^ 2 +
          (demoLine.getPosition.endY - demoLine.targetY) ^ 2 : ℚ) : ℝ))
        - (demoLine.length : ℝ) :=
  C6_line_geometry_amended demoLine 1 (by norm_num [demoLine]) (by norm_num [demoLine])
    (by norm_num [demoLine]) (by norm_num)

/-- C7: on a charging advance step the energy-particle collection is
exactly the spawn-extended collection passed through `energyFilter`, and
that filter removes a particle whose updated position is within 50 units
of the center even when its updated `life` is still positive; away from
the 50-unit radius, removal happens exactly when `life` has run out — the
two removal conditions are independent. -/
theorem C7_energy_absorption (cx cy delta : ℚ) (r : TickRnd) (st : GachaState)
    (p q : Particle)
    (hch : st.phase = .charging) (hno : st.chargeProgress + delta / 90 < 1)
    (hp : nearCenter (p.update delta).1 cx cy = true)
    (_hplife : 0 < (p.update delta).1.life)
    (hq : nearCenter (q.update delta).1 cx cy = false) :
    (advance cx cy r delta st).energyParticles
      = (energySpawn r cx cy st.energyParticles).filterMap (energyFilter cx cy delta) ∧
    energyFilter cx cy delta p = none ∧
    (energyFilter cx cy delta q = none ↔ (q.update delta).1.life ≤ 0) := by
  refine ⟨?_, ?_, ?_⟩
  · rw [advance_charging cx cy r delta st hch]
    unfold chargingStep
    rw [if_neg (not_le.mpr hno)]
  · simp [energyFilter, hp]
  · have hb : (q.update delta).2 = decide (0 < (q.update delta).1.life) := rfl
    by_cases hl : 0 < (q.update delta).1.life
    · simp only [energyFilter, hq, Bool.false_eq_true, if_false, hb,
        decide_eq_true hl, if_true]
      constructor
      · intro hcontra; exact absurd hcontra (by simp)
      · intro hle; exact absurd hle (not_le.mpr hl)
    · simp only [energyFilter, hq, Bool.false_eq_true, if_false, hb,
        decide_eq_false hl, Bool.false_eq_true]
      exact ⟨fun _ => not_lt.mp hl, fun _ => trivial⟩

/-- Witness for C7 at concrete particles: `centerParticle` ends inside the
absorption radius with positive life; `farParticle` stays outside it. -/
theorem C7_witness :
    (advance 0 0 rnd0 1 chargingState).energyParticles
      = (energySpawn rnd0 0 0 chargingState.energyParticles).filterMap (energyFilter 0 0 1) ∧
    energyFilter 0 0 1 centerParticle = none ∧
    (energyFilter 0 0 1 farParticle = none ↔ (farParticle.update 1).1.life ≤ 0) :=
  C7_energy_absorption 0 0 1 rnd0 chargingState centerParticle farParticle
    rfl (by norm_num [chargingState, initialState])
    (by norm_num [nearCenter, centerParticle, Particle.update])
    (by norm_num [centerParticle, Particle.update])
    (by norm_num [nearCenter, farParticle, centerParticle, Particle.update])

theorem chargingStep_cross (cx cy : ℚ) (r : TickRnd) (delta : ℚ) (st : GachaState)
    (hph : st.phase = .charging) (h : 1 ≤ st.chargeProgress + delta / 90) :
    (advance cx cy r delta st).phase = .releasing ∧
    (advance cx cy r delta st).particles = st.particles ++ explosionParticles cx cy r.explosion ∧
    (advance cx cy r delta st).chargeProgress = 0 ∧
    (advance cx cy r delta st).selectedFortune = st.selectedFortune := by
  rw [advance_charging cx cy r delta st hph]
  unfold chargingStep
  rw [if_pos h]
  exact ⟨rfl, rfl, rfl, rfl⟩

theorem chargingStep_nocross (cx cy : ℚ) (r : TickRnd) (delta : ℚ) (st : GachaState)
    (hph : st.phase = .charging) (h : st.chargeProgress + delta / 90 < 1) :
    (advance cx cy r delta st).phase = .charging ∧
    (advance cx cy r delta st).particles = st.particles ∧
    (advance cx cy r delta st).chargeProgress = st.chargeProgress + delta / 90 := by
  rw [advance_charging cx cy r delta st hph]
  unfold chargingStep
  rw [if_neg (not_le.mpr h)]
  exact ⟨hph, rfl, rfl⟩

theorem releasingStep_cross (cx cy : ℚ) (r : TickRnd) (delta : ℚ) (st : GachaState)
    (hph : st.phase = .releasing) (h : 1 ≤ st.chargeProgress + delta / 60)
    (hsf : st.selectedFortune.isSome = true) :
    (advance cx cy r delta st).phase = .result := by
  rw [advance_releasing cx cy r delta st hph]
  unfold releasingStep
  rw [if_pos ⟨h, hsf⟩]

theorem explosionParticles_length (cx cy : ℚ) (e : Fin 150 → Fin 5 × ParticleRnd) :
    (explosionParticles cx cy e).length = 150 := by
  rw [explosionParticles]
  exact List.length_ofFn _

theorem explosionParticles_palette (cx cy : ℚ) (e : Fin 150 → Fin 5 × ParticleRnd)
    (p : Particle) (hp : p ∈ explosionParticles cx cy e) : p.color ∈ explosionPalette := by
  rw [explosionParticles, List.mem_ofFn] at hp
  obtain ⟨i, hi⟩ := hp
  rw [← hi]
  exact List.get_mem explosionPalette _ _

/-- C4 counterexample: the claim as stated quantifies over all advance
sequences whose deltas total at least 90; but two frames of 90 ticks each
(total 180 ≥ 90) overshoot through `releasing` into `result`, so the run
does not end in `releasing`. -/
theorem C4_counterexample :
    (90 : ℚ) + 90 ≥ 90 ∧
    (runTicks [tick90, tick90] (handleTap f0 initialState)).phase ≠ GachaPhase.releasing := by
  constructor
  · norm_num
  · have hcp0 : (handleTap f0 initialState).chargeProgress = 0 := rfl
    have t1 := chargingStep_cross 0 0 rnd0 90 (handleTap f0 initialState) rfl
      (by rw [hcp0]; norm_num)
    have hsf1 : (advance 0 0 rnd0 90 (handleTap f0 initialState)).selectedFortune.isSome
        = true := by
      rw [t1.2.2.2]; rfl
    have t2 := releasingStep_cross 0 0 rnd0 90 (advance 0 0 rnd0 90 (handleTap f0 initialState))
      t1.1 (by rw [t1.2.2.1]; norm_num) hsf1
    have hrun : runTicks [tick90, tick90] (handleTap f0 initialState)
        = advance 0 0 rnd0 90 (advance 0 0 rnd0 90 (handleTap f0 initialState)) := rfl
    rw [hrun, t2]
    decide

theorem chargingRun (ts : List Tick) : ∀ st : GachaState,
    st.phase = .charging →
    (∀ k : Nat, 0 < k → k < ts.length → st.chargeProgress + sumDt (ts.take k) / 90 < 1) →
    1 ≤ st.chargeProgress + sumDt ts / 90 →
    ts ≠ [] →
    (runTicks ts st).phase = .releasing ∧
    ∃ newPs : List Particle,
      (runTicks ts st).particles = st.particles ++ newPs ∧
      newPs.length = 150 ∧ ∀ p ∈ newPs, p.color ∈ explosionPalette := by
  induction ts with
  | nil => intro st _ _ _ hne; exact absurd rfl hne
  | cons t ts ih =>
    intro st hph hpre htot _
    have hrun : runTicks (t :: ts) st = runTicks ts (advance t.cx t.cy t.rnd t.dt st) := rfl
    by_cases hts : ts = []
    · subst hts
      have hcross : 1 ≤ st.chargeProgress + t.dt / 90 := by
        have hs : sumDt [t] = t.dt := by simp [sumDt]
        rw [hs] at htot; exact htot
      have hc := chargingStep_cross t.cx t.cy t.rnd t.dt st hph hcross
      refine ⟨?_, explosionParticles t.cx t.cy t.rnd.explosion, ?_, ?_, ?_⟩
      · rw [hrun]; exact hc.1
      · rw [hrun]; exact hc.2.1
      · exact explosionParticles_length _ _ _
      · exact fun p hp => explosionParticles_palette _ _ _ p hp
    · have hlen1 : 1 < (t :: ts).length := by
        cases ts with
        | nil => exact absurd rfl hts
        | cons a l => simp [List.length_cons]
      have h1 : st.chargeProgress + t.dt / 90 < 1 := by
        have hp1 := hpre 1 one_pos hlen1
        simpa [sumDt] using hp1
      have hnc := chargingStep_nocross t.cx t.cy t.rnd t.dt st hph h1
      have hdiv : ∀ X : ℚ, st.chargeProgress + (t.dt + X) / 90
          = (st.chargeProgress + t.dt / 90) + X / 90 := by
        intro X; rw [add_div]; ring
      have hpre1 : ∀ k : Nat, 0 < k → k < ts.length →
          (advance t.cx t.cy t.rnd t.dt st).chargeProgress + sumDt (ts.take k) / 90 < 1 := by
        intro k hk hklen
        have hk2 : k + 1 < (t :: ts).length := by
          simpa [List.length_cons] using Nat.succ_lt_succ hklen
        have hp2 := hpre (k + 1) (Nat.succ_pos k) hk2
        have htake : sumDt ((t :: ts).take (k + 1)) = t.dt + sumDt (ts.take k) := by
          simp [sumDt]
        rw [htake, hdiv] at hp2
        rw [hnc.2.2]
        linarith [hp2]
      have htot1 : 1 ≤ (advance t.cx t.cy t.rnd t.dt st).chargeProgress + sumDt ts / 90 := by
        have hsum : sumDt (t :: ts) = t.dt + sumDt ts := by simp [sumDt]
        rw [hsum, hdiv] at htot
        rw [hnc.2.2]
        linarith [htot]
      obtain ⟨hphF, newPs, hpartF, hlenF, hcolF⟩ :=
        ih (advance t.cx t.cy t.rnd t.dt st) hnc.1 hpre1 htot1 hts
      refine ⟨by rw [hrun]; exact hphF, newPs, ?_, hlenF, hcolF⟩
      rw [hrun, hpartF, hnc.2.1]

/-- C4 (amended): starting in `idle`, one tap followed by advance steps
that first reach cumulative `deltaTime ≥ 90` on their last frame (every
proper prefix sums below 90, the total reaches 90) ends with
`phase = releasing`, and the `charging → releasing` transition appends
exactly 150 explosion particles whose colors all come from the fixed
explosion palette.  (The prefix condition is the counterexample-forced
reading of the spec's "advance(90) repeatedly until cumulative
deltaTime ≥ 90": without it the run may overshoot through `releasing`
into `result`.) -/
theorem C4_scenarioA_amended (st : GachaState) (fr : Fin 6) (ts : List Tick)
    (hidle : st.phase = .idle) (hne : ts ≠ [])
    (hpre : ∀ k : Nat, 0 < k → k < ts.length → sumDt (ts.take k) < 90)
    (htot : 90 ≤ sumDt ts) :
    (runTicks ts (handleTap fr st)).phase = .releasing ∧
    ∃ newPs : List Particle,
      (runTicks ts (handleTap fr st)).particles = st.particles ++ newPs ∧
      newPs.length = 150 ∧ ∀ p ∈ newPs, p.color ∈ explosionPalette := by
  have htap_ph : (handleTap fr st).phase = .charging := by simp [handleTap, hidle]
  have htap_cp : (handleTap fr st).chargeProgress = 0 := by simp [handleTap, hidle]
  have htap_ps : (handleTap fr st).particles = st.particles := by simp [handleTap, hidle]
  have h1 : ∀ k : Nat, 0 < k → k < ts.length →
      (handleTap fr st).chargeProgress + sumDt (ts.take k) / 90 < 1 := by
    intro k hk hklen
    rw [htap_cp, zero_add, div_lt_one (by norm_num : (0:ℚ) < 90)]
    exact hpre k hk hklen
  have h2 : 1 ≤ (handleTap fr st).chargeProgress + sumDt ts / 90 := by
    rw [htap_cp, zero_add, one_le_div (by norm_num : (0:ℚ) < 90)]
    exact htot
  obtain ⟨hph, newPs, hpart, hlen, hcol⟩ := chargingRun ts (handleTap fr st) htap_ph h1 h2 hne
  exact ⟨hph, newPs, by rw [hpart, htap_ps], hlen, hcol⟩

/-- Witness for the amended C4: one 90-tick frame after the initial tap. -/
theorem C4_witness :
    (runTicks [tick90] (handleTap f0 initialState)).phase = .releasing ∧
    ∃ newPs : List Particle,
      (runTicks [tick90] (handleTap f0 initialState)).particles
        = initialState.particles ++ newPs ∧
      newPs.length = 150 ∧ ∀ p ∈ newPs, p.color ∈ explosionPalette :=
  C4_scenarioA_amended initialState f0 [tick90] rfl (by simp)
    (by intro k hk hklen; simp at hklen; exact absurd hklen (by omega))
    (by simp [sumDt, tick90])
